import Mathlib

/-!
Verification development for `hydroperx/fluent.js` (`src/index.ts`), a
locale-resolution and bundle-loading engine (`FluentBox`).

Shallow embedding notes.

* `Intl.Locale` objects are modelled by `IntlLocale`, a wrapper around the
  canonical string form (`.toString()` of the JS object).  Canonicalization
  itself (ECMA-402 `new Intl.Locale(s)`) is an external platform routine; it
  is a parameter `canon : String → Option String` of the constructor
  embedding, `none` meaning the JS constructor throws (malformed locale).
* JS `Map`s keyed by strings are association lists (`mapGet` / `mapSet`,
  first-occurrence update as in JS `Map.set`); the JS `Set<String>`
  `_locales` is a list with `setAdd` (insert-if-absent).
* The mutable state of a `FluentBox` is split in two, following exactly what
  `clone()` (index.ts:337-351) shares by reference versus copies by value:
  the collection fields (`_localeToPathComponents`, `_locales`, `_fallbacks`,
  `_assets`, `_files`, `_bundleInitializers`) are JS heap objects whose
  references are copied, so every handle of a clone family aliases the same
  collections — they form `SharedState`.  The scalar fields
  (`_currentLocale`, `_defaultLocale`, `_source`, `_clean`, `_method`)
  are per-handle slots: an assignment such as `self._currentLocale =
  newLocale` (index.ts:195) writes the field of the handle `load` was called
  on, and is not seen through a clone's own field.  These form `HandleState`.
  No method ever rebinds a collection field after construction, so modelling
  the shared collections as one block threaded through operations is faithful.
* The resource backends (`fsLoader`/`httpLoader`) and `FluentBundle` are
  external collaborators.  A fetch-plus-build for one locale is the oracle
  `fetcher : String → Option FluentBundle` (keyed by the canonical locale
  string; `none` = that locale's fetch or build fails, i.e. the promise from
  `_loadSingleLocale` rejects).  `FluentBundle.formatPattern` is the
  parameter `fmt`, returning the formatted string together with the errors it
  appends to the caller-supplied sink.
* The recursions `_enumerateFallbacksToSet`, `_getMessageByLocale` and
  `_hasMessageByLocale` are unguarded in JS (cyclic fallback graphs diverge);
  they take an explicit fuel.  `Option`-valued results use the outer `none`
  for fuel exhaustion, `some` for the value the JS function returns.
-/

/-- Canonical locale identifier: the `.toString()` of an `Intl.Locale`. -/
structure IntlLocale where
  tag : String
deriving DecidableEq, Repr

/-- Lookup in a JS `Map` keyed by strings (`Map.get`). -/
def mapGet {α : Type} (m : List (String × α)) (k : String) : Option α :=
  match m with
  | [] => none
  | p :: rest => if p.1 == k then some p.2 else mapGet rest k

/-- Update in a JS `Map` keyed by strings (`Map.set`): overwrites the first
occurrence, else appends (JS insertion order). -/
def mapSet {α : Type} (m : List (String × α)) (k : String) (v : α) :
    List (String × α) :=
  match m with
  | [] => [(k, v)]
  | p :: rest => if p.1 == k then (k, v) :: rest else p :: mapSet rest k v

/-- JS `Set<String>.add`: insert if absent, keeping insertion order. -/
def setAdd (l : List String) (s : String) : List String :=
  if l.contains s then l else l ++ [s]

/-- A message inside a `FluentBundle`: `value` is the (possibly absent)
pattern; patterns are opaque to the engine and modelled as strings. -/
structure FluentMessage where
  value : Option String
deriving DecidableEq, Repr

/-- External `FluentBundle`: a queryable message table for one locale. -/
structure FluentBundle where
  locale : String
  messages : List (String × FluentMessage)
deriving DecidableEq, Repr

/-- `FluentBundle.getMessage(id)` of the external bundle library. -/
def FluentBundle.getMessage (b : FluentBundle) (id : String) :
    Option FluentMessage :=
  mapGet b.messages id

/-- Formatting arguments (`Record<string, FluentVariable>`), opaque. -/
def FluentArgs : Type := List (String × String)

/-- `bundle.formatPattern(pattern, args, errors)`: returns the formatted
string and the list of errors it appends to the sink. External collaborator,
passed as a parameter. -/
def Fmt : Type := String → Option FluentArgs → String × List String

/-- JS `String.prototype.toLowerCase` as used on the ASCII locale tags of
this engine: per-character lowercasing. -/
def strToLower (s : String) : String :=
  ⟨s.data.map Char.toLower⟩

/-- `options.method` selection. -/
inductive LoadMethod where
  | http
  | fileSystem
deriving DecidableEq, Repr

/-- The collection fields of a `FluentBox`: JS heap objects shared by
reference across `clone()` (index.ts:340-347 copy the references). -/
structure SharedState where
  _localeToPathComponents : List (String × String)
  _locales : List String
  _fallbacks : List (String × List String)
  _assets : List (String × FluentBundle)
  _files : List String
  _bundleInitializers : List Nat
deriving DecidableEq, Repr

/-- The per-handle scalar fields of a `FluentBox`: copied by value by
`clone()` (index.ts:339,342,346,348,349), written only through the handle
they belong to. -/
structure HandleState where
  _currentLocale : Option IntlLocale
  _defaultLocale : Option IntlLocale
  _source : String
  _clean : Bool
  _method : LoadMethod
deriving DecidableEq, Repr

namespace FluentBox

/-- Argument of `supportsLocale`: an `Intl.Locale | string`. `.toString()`
of an `Intl.Locale` is its canonical tag; of a string, the string itself. -/
def argToString (argument : IntlLocale ⊕ String) : String :=
  match argument with
  | .inl l => l.tag
  | .inr s => s

/-- `supportsLocale` (index.ts:127-129): membership of `argument.toString()`
in the `_locales` set. -/
def supportsLocale (s : SharedState) (argument : IntlLocale ⊕ String) : Bool :=
  s._locales.contains (argToString argument)

/-- `currentLocale` getter (index.ts:134-136). -/
def currentLocale (h : HandleState) : Option IntlLocale :=
  h._currentLocale

/-- `_enumerateFallbacksToSet` (index.ts:235-244), and identically
`_enumerateFallbacks` (index.ts:224-233).  The JS "set" is a
`Set<Intl.Locale>` to which a **fresh** `new Intl.Locale(item)` object is
added per visit; JS `Set` deduplicates by object identity, so the fresh
objects are never equal and the set behaves as an insertion-ordered list
with duplicates — hence a list here.  Fuel bounds the unguarded recursion
(fuel 0 yields `[]`; every claim is stated for sufficient or all fuel). -/
def enumerateFallbacks (fb : List (String × List String)) :
    Nat → String → List String
  | 0, _ => []
  | fuel + 1, locale =>
    match mapGet fb locale with
    | none => []
    | some list => list.flatMap (fun item => item :: enumerateFallbacks fb fuel item)

/-- The batch of locales `load` fetches: `new Set([newLocale])` then
`_enumerateFallbacksToSet(newLocale.toString(), toLoad)` (index.ts:181-182),
iterated by `Array.from` in insertion order. -/
def toLoadList (fb : List (String × List String)) (fuel : Nat)
    (newLocale : String) : List String :=
  newLocale :: enumerateFallbacks fb fuel newLocale

/-- `Promise.all`: succeeds with the list of results iff every promise in the
batch resolves. -/
def promiseAll {α : Type} : List (Option α) → Option (List α)
  | [] => some []
  | o :: rest =>
    match o with
    | none => none
    | some a =>
      match promiseAll rest with
      | none => none
      | some l => some (a :: l)

/-- Result of a `load` call: a synchronous throw, or the promise resolving
to a boolean (the code's promise never rejects: `.catch` resolves `false`). -/
inductive LoadResult where
  | threw (msg : String)
  | resolved (success : Bool)
deriving DecidableEq, Repr

/-- `load` (index.ts:171-207).  `fetcher` is the per-locale fetch+build
(`_loadSingleLocale`, index.ts:210-222, resolving to
`[locale.toString(), bundle]`).  Success path: optional `_assets.clear()`
under the clean policy, then `set` per result pair, then
`_currentLocale = newLocale`; bundle initializers are external callbacks that
do not touch engine fields.  Failure of any fetch rejects the `Promise.all`
and the `.catch` resolves `false` with no mutation. -/
def load (h : HandleState) (s : SharedState)
    (fetcher : String → Option FluentBundle) (fuel : Nat)
    (newLocaleArg : Option IntlLocale) :
    HandleState × SharedState × LoadResult :=
  match newLocaleArg.orElse (fun _ => h._defaultLocale) with
  | none => (h, s, .threw "Locale argument must be an Intl.Locale object")
  | some newLocale =>
    if supportsLocale s (.inl newLocale) then
      let toLoad := toLoadList s._fallbacks fuel newLocale.tag
      match promiseAll (toLoad.map (fun a => (fetcher a).map (fun b => (a, b)))) with
      | some res =>
        let assets0 := if h._clean then [] else s._assets
        let assets1 := res.foldl (fun m p => mapSet m p.1 p.2) assets0
        ({ h with _currentLocale := some newLocale },
         { s with _assets := assets1 },
         .resolved true)
      | none => (h, s, .resolved false)
    else
      (h, s, .threw "Unsupported locale")

/-- `clone` (index.ts:337-351): builds a new handle copying every field; the
collection fields are reference copies (aliasing `SharedState`), the scalar
fields value copies — so the new `HandleState` copies each field of the old. -/
def cloneHandle (h : HandleState) : HandleState :=
  { _currentLocale := h._currentLocale
    _defaultLocale := h._defaultLocale
    _source := h._source
    _clean := h._clean
    _method := h._method }

/-- `options` argument of the public constructor (index.ts:354-367).  The
dynamic shape checks of the JS constructor (non-object options, non-array
locales/files, non-boolean clean, unknown method) are type-level here; the
fallbacks object is a key/value list iterated in property order. -/
structure FluentBoxOptions where
  locales : List String
  fallbacks : List (String × List String)
  defaultLocale : String
  source : String
  files : List String
  clean : Bool
  method : LoadMethod

/-- `_parseLocaleOrThrow` (index.ts:33-39): `new Intl.Locale(s)` with the
platform canonicalization `canon`; `none` means the JS constructor throws. -/
def parseLocaleOrThrow (canon : String → Option String) (s : String) :
    Except String IntlLocale :=
  match canon s with
  | some t => .ok ⟨t⟩
  | none => .error "malformed locale"

/-- The `for (let unparsedLocale of options.locales)` loop of the
constructor (index.ts:54-58): canonicalize each declared locale, record its
raw spelling as path component (`Map.set`) and add its canonical form to the
locale set (`Set.add`); a parse failure throws. -/
def addLocalesLoop (canon : String → Option String) :
    List String → List (String × String) → List String →
    Except String (List (String × String) × List String)
  | [], ltpc, locs => .ok (ltpc, locs)
  | unparsedLocale :: rest, ltpc, locs =>
    match canon unparsedLocale with
    | none => .error "malformed locale"
    | some parsed =>
      addLocalesLoop canon rest (mapSet ltpc parsed unparsedLocale)
        (setAdd locs parsed)

/-- The `fallbackArray.map(...)` of the constructor (index.ts:70-75):
canonicalize each fallback value, throwing on parse failure. -/
def parseFallbackValues (canon : String → Option String) :
    List String → Except String (List String)
  | [] => .ok []
  | a :: rest =>
    match canon a with
    | none => .error "malformed locale"
    | some t =>
      match parseFallbackValues canon rest with
      | .error e => .error e
      | .ok ts => .ok (t :: ts)

/-- The `for (let fallbackUnparsedLocale in fallbacks)` loop of the
constructor (index.ts:60-77): canonicalize each key and its value list and
`Map.set` the pair. -/
def addFallbacksLoop (canon : String → Option String) :
    List (String × List String) → List (String × List String) →
    Except String (List (String × List String))
  | [], fbMap => .ok fbMap
  | kv :: rest, fbMap =>
    match canon kv.1 with
    | none => .error "malformed locale"
    | some kt =>
      match parseFallbackValues canon kv.2 with
      | .error e => .error e
      | .ok vts => addFallbacksLoop canon rest (mapSet fbMap kt vts)

/-- The public constructor (index.ts:44-101): canonicalizes every declared
locale (recording its raw spelling as path component), canonicalizes the
fallback map's keys and values, and the default locale; any canonicalization
failure aborts construction.  The dynamic shape checks of the JS code are
type-level here. -/
def construct (canon : String → Option String) (options : FluentBoxOptions) :
    Except String (HandleState × SharedState) :=
  match addLocalesLoop canon options.locales [] [] with
  | .error e => .error e
  | .ok (ltpc, locs) =>
    match addFallbacksLoop canon options.fallbacks [] with
    | .error e => .error e
    | .ok fbMap =>
      match canon options.defaultLocale with
      | none => .error "malformed locale"
      | some dl =>
        .ok ({ _currentLocale := none
               _defaultLocale := some ⟨dl⟩
               _source := options.source
               _clean := options.clean
               _method := options.method },
             { _localeToPathComponents := ltpc
               _locales := locs
               _fallbacks := fbMap
               _assets := []
               _files := options.files
               _bundleInitializers := [] })

/-- The `for (let fl of fallbacks)` loop of `_getMessageByLocale`
(index.ts:283-288): returns the first non-null recursive result; the errors
each tried child appends to the shared sink accumulate.  Outer `none` is
fuel exhaustion inside a child. -/
def firstMsg (f : String → Option (Option String × List String)) :
    List String → Option (Option String × List String)
  | [] => some (none, [])
  | fl :: rest =>
    match f fl with
    | none => none
    | some (some r, errs) => some (some r, errs)
    | some (none, errs) =>
      match firstMsg f rest with
      | none => none
      | some (res, errs2) => some (res, errs ++ errs2)

/-- `_getMessageByLocale` (index.ts:265-297).  Returns the lookup result
(`none` = the JS `null`) paired with the errors appended to the caller's
sink; the outer `Option` is fuel. -/
def getMessageByLocale (s : SharedState) (dl : Option IntlLocale) (fmt : Fmt)
    (id : String) (args : Option FluentArgs) :
    Nat → String → Option (Option String × List String)
  | 0, _ => none
  | fuel + 1, locale =>
    let own : Option (String × List String) :=
      match mapGet s._assets locale with
      | some assets =>
        match assets.getMessage id with
        | some msg =>
          match msg.value with
          | some pat => some (fmt pat args)
          | none => some ("", [])
        | none => none
      | none => none
    match own with
    | some r => some (some r.1, r.2)
    | none =>
      match firstMsg (getMessageByLocale s dl fmt id args fuel)
          ((mapGet s._fallbacks locale).getD []) with
      | none => none
      | some (some v, errs) => some (some v, errs)
      | some (none, errs) =>
        match dl with
        | some d =>
          if strToLower locale == strToLower d.tag then
            some (none, errs)
          else
            match getMessageByLocale s dl fmt id args fuel d.tag with
            | none => none
            | some (res, errs2) => some (res, errs ++ errs2)
        | none => some (none, errs)

/-- `getMessage` (index.ts:249-263): `null` when no current locale. -/
def getMessage (h : HandleState) (s : SharedState) (fmt : Fmt) (id : String)
    (args : Option FluentArgs) (fuel : Nat) :
    Option (Option String × List String) :=
  match h._currentLocale with
  | none => some (none, [])
  | some cl => getMessageByLocale s h._defaultLocale fmt id args fuel cl.tag

/-- The fallback loop of `_hasMessageByLocale` (index.ts:317-323). -/
def firstHas (f : String → Option Bool) : List String → Option Bool
  | [] => some false
  | fl :: rest =>
    match f fl with
    | none => none
    | some true => some true
    | some false => firstHas f rest

/-- `_hasMessageByLocale` (index.ts:308-331): the same cascade without
formatting; a defined message counts regardless of its value. -/
def hasMessageByLocale (s : SharedState) (dl : Option IntlLocale)
    (id : String) : Nat → String → Option Bool
  | 0, _ => none
  | fuel + 1, locale =>
    let own : Bool :=
      match mapGet s._assets locale with
      | some assets => (assets.getMessage id).isSome
      | none => false
    if own then some true
    else
      match firstHas (hasMessageByLocale s dl id fuel)
          ((mapGet s._fallbacks locale).getD []) with
      | none => none
      | some true => some true
      | some false =>
        match dl with
        | some d =>
          if strToLower locale == strToLower d.tag then some false
          else hasMessageByLocale s dl id fuel d.tag
        | none => some false

/-- `hasMessage` (index.ts:302-306). -/
def hasMessage (h : HandleState) (s : SharedState) (id : String) (fuel : Nat) :
    Option Bool :=
  match h._currentLocale with
  | none => some false
  | some cl => hasMessageByLocale s h._defaultLocale id fuel cl.tag

/-! ### Concrete instances used to exercise the theorems -/

/-- A formatter instance: returns the pattern itself, appends no errors. -/
def fmtId : Fmt := fun pat _ => (pat, [])

def bundleEN : FluentBundle := ⟨"en", [("hello", ⟨some "Hello"⟩)]⟩

def bundlePT : FluentBundle := ⟨"pt", [("hello", ⟨some "Ola"⟩)]⟩

def bundleDE : FluentBundle :=
  ⟨"de", [("bye", ⟨some "Tschuess"⟩), ("noval", ⟨none⟩)]⟩

/-- Shared collections: three locales, `en` falling back to `pt`, a `de`
bundle already loaded. -/
def sharedW : SharedState :=
  { _localeToPathComponents := [("en", "en"), ("pt", "pt"), ("de", "de")]
    _locales := ["en", "pt", "de"]
    _fallbacks := [("en", ["pt"])]
    _assets := [("de", bundleDE)]
    _files := ["main.ftl"]
    _bundleInitializers := [] }

/-- A handle over `sharedW` with `de` current and default, clean policy. -/
def handleW : HandleState :=
  { _currentLocale := some ⟨"de"⟩
    _defaultLocale := some ⟨"de"⟩
    _source := "res/lang"
    _clean := true
    _method := .http }

/-- Same handle under the accumulate policy. -/
def handleWacc : HandleState :=
  { handleW with _clean := false }

/-- A fetch oracle succeeding for `en` and `pt`. -/
def fetchW : String → Option FluentBundle := fun l =>
  if l == "en" then some bundleEN else if l == "pt" then some bundlePT else none

/-- A fetch oracle failing for `pt` (the fallback of `en`). -/
def fetchFailPT : String → Option FluentBundle := fun l =>
  if l == "en" then some bundleEN else none

/-- Handle after `load(en)` through `handleW` (clean policy). -/
def handleW' : HandleState := { handleW with _currentLocale := some ⟨"en"⟩ }

/-- Shared collections after `load(en)` under the clean policy. -/
def sharedW' : SharedState :=
  { sharedW with _assets := [("en", bundleEN), ("pt", bundlePT)] }

/-- Shared collections after `load(en)` under the accumulate policy. -/
def sharedWacc' : SharedState :=
  { sharedW with
      _assets := [("de", bundleDE), ("en", bundleEN), ("pt", bundlePT)] }

/-- Cascade instance (C4 shape): `en → [fr]`, `fr → [de]`, default `pt`. -/
def bundleC4en : FluentBundle := ⟨"en", [("other", ⟨some "x"⟩)]⟩

def bundleC4fr : FluentBundle := ⟨"fr", [("other", ⟨some "y"⟩)]⟩

def bundleC4de : FluentBundle := ⟨"de", [("inC", ⟨some "C-val"⟩)]⟩

def bundleC4pt : FluentBundle := ⟨"pt", [("inD", ⟨some "D-val"⟩)]⟩

def sharedC4 : SharedState :=
  { _localeToPathComponents :=
      [("en", "en"), ("fr", "fr"), ("de", "de"), ("pt", "pt")]
    _locales := ["en", "fr", "de", "pt"]
    _fallbacks := [("en", ["fr"]), ("fr", ["de"])]
    _assets := [("en", bundleC4en), ("fr", bundleC4fr), ("de", bundleC4de),
                ("pt", bundleC4pt)]
    _files := ["main.ftl"]
    _bundleInitializers := [] }

def handleC4 : HandleState :=
  { _currentLocale := some ⟨"en"⟩
    _defaultLocale := some ⟨"pt"⟩
    _source := "res"
    _clean := true
    _method := .fileSystem }

/-- Termination instance (C8 shape): current `en-US`, default `en-us`
(different casing), no fallbacks, message absent. -/
def bundleC8 : FluentBundle := ⟨"en-US", [("other", ⟨some "x"⟩)]⟩

def sharedC8 : SharedState :=
  { _localeToPathComponents := [("en-US", "en-us")]
    _locales := ["en-US"]
    _fallbacks := []
    _assets := [("en-US", bundleC8)]
    _files := ["main.ftl"]
    _bundleInitializers := [] }

def handleC8 : HandleState :=
  { _currentLocale := some ⟨"en-US"⟩
    _defaultLocale := some ⟨"en-us"⟩
    _source := "res"
    _clean := true
    _method := .http }

/-- A canonicalization instance: ECMA-402 canonicalizes the spellings
`en-us` and `en-US` both to `en-US` (lowercase language, uppercase region);
other inputs are treated as malformed. -/
def canonEx : String → Option String := fun str =>
  if str == "en-us" || str == "en-US" then some "en-US" else none

/-- Declared-locale options written with the non-canonical spelling. -/
def optsC5 : FluentBoxOptions :=
  { locales := ["en-us"]
    fallbacks := []
    defaultLocale := "en-US"
    source := "res"
    files := ["main.ftl"]
    clean := true
    method := .http }

/-- Handle produced by `construct canonEx optsC5`. -/
def handleC5 : HandleState :=
  { _currentLocale := none
    _defaultLocale := some ⟨"en-US"⟩
    _source := "res"
    _clean := true
    _method := .http }

/-- Shared collections produced by `construct canonEx optsC5`. -/
def sharedC5 : SharedState :=
  { _localeToPathComponents := [("en-US", "en-us")]
    _locales := ["en-US"]
    _fallbacks := []
    _assets := []
    _files := ["main.ftl"]
    _bundleInitializers := [] }

/-! ### Helper lemmas about the map/set/promise embedding -/

theorem mapGet_mapSet {α : Type} (m : List (String × α)) (k k' : String)
    (v : α) :
    mapGet (mapSet m k v) k' = if k == k' then some v else mapGet m k' := by
  induction m with
  | nil => simp [mapSet, mapGet]
  | cons p rest ih =>
    by_cases hp : p.1 = k
    · subst hp
      simp only [mapSet, beq_self_eq_true, if_true, mapGet]
      by_cases hk : p.1 = k'
      · subst hk; simp
      · simp [hk, beq_eq_false_iff_ne.mpr hk, mapGet]
    · simp only [mapSet, beq_eq_false_iff_ne.mpr hp, if_false, mapGet]
      by_cases hk : p.1 = k'
      · subst hk
        have : ¬(k = p.1) := fun hkk => hp hkk.symm
        simp [beq_eq_false_iff_ne.mpr this]
      · simp [beq_eq_false_iff_ne.mpr hk, ih]

theorem promiseAll_fail {α β : Type} (f : α → Option β) :
    ∀ (l : List α), (∃ x ∈ l, f x = none) →
      promiseAll (l.map (fun a => (f a).map (fun b => (a, b)))) = none := by
  intro l
  induction l with
  | nil => rintro ⟨x, hx, -⟩; cases hx
  | cons a rest ih =>
    rintro ⟨x, hx, hf⟩
    simp only [List.map_cons, promiseAll]
    rcases List.mem_cons.mp hx with h | h
    · subst h
      rw [hf]
      rfl
    · rw [ih ⟨x, h, hf⟩]
      cases hfa : f a <;> simp [hfa]

theorem promiseAll_ok {α β : Type} (f : α → Option β) :
    ∀ (l : List α) (res : List (α × β)),
      promiseAll (l.map (fun a => (f a).map (fun b => (a, b)))) = some res →
      res.map Prod.fst = l ∧ ∀ p ∈ res, f p.1 = some p.2 := by
  intro l
  induction l with
  | nil =>
    intro res h
    simp only [List.map_nil, promiseAll, Option.some_inj] at h
    subst h
    simp
  | cons a rest ih =>
    intro res h
    simp only [List.map_cons, promiseAll] at h
    cases hfa : f a with
    | none => rw [hfa] at h; simp at h
    | some b =>
      rw [hfa] at h
      rw [show Option.map (fun b => (a, b)) (some b) = some (a, b) from rfl] at h
      cases hrest : promiseAll (rest.map (fun a => (f a).map (fun b => (a, b)))) with
      | none => rw [hrest] at h; simp at h
      | some res' =>
        rw [hrest] at h
        simp only [Option.some_inj] at h
        subst h
        obtain ⟨ih1, ih2⟩ := ih res' hrest
        refine ⟨by simp [ih1], ?_⟩
        intro p hp
        rcases List.mem_cons.mp hp with h | h
        · subst h; exact hfa
        · exact ih2 p h

theorem mapGet_foldl_mapSet {α : Type} (f : String → Option α) :
    ∀ (res : List (String × α)) (m : List (String × α)) (k : String),
      (∀ p ∈ res, f p.1 = some p.2) →
      mapGet (res.foldl (fun m p => mapSet m p.1 p.2) m) k =
        if k ∈ res.map Prod.fst then f k else mapGet m k := by
  intro res
  induction res with
  | nil => intro m k _; simp
  | cons p rest ih =>
    intro m k hall
    have hrest : ∀ q ∈ rest, f q.1 = some q.2 := fun q hq =>
      hall q (List.mem_cons_of_mem p hq)
    simp only [List.foldl_cons]
    rw [ih (mapSet m p.1 p.2) k hrest, mapGet_mapSet]
    by_cases hmem : k ∈ rest.map Prod.fst
    · simp [hmem]
    · by_cases hpk : p.1 = k
      · subst hpk
        simp [hmem, hall p (List.mem_cons_self p rest)]
      · have hkp : ¬(k = p.1) := fun hkk => hpk hkk.symm
        simp [hmem, hkp, beq_eq_false_iff_ne.mpr hpk]

theorem setAdd_mem (l : List String) (s x : String) :
    x ∈ setAdd l s ↔ x ∈ l ∨ x = s := by
  unfold setAdd
  by_cases hs : s ∈ l
  · rw [if_pos (List.elem_iff.mpr hs)]
    constructor
    · exact Or.inl
    · rintro (hx | hx)
      · exact hx
      · exact hx ▸ hs
  · rw [if_neg (fun hc => hs (List.elem_iff.mp hc))]
    simp [List.mem_append]

theorem addLocalesLoop_mem (canon : String → Option String) :
    ∀ (ls : List String) (ltpc : List (String × String)) (locs : List String)
      (ltpc' : List (String × String)) (locs' : List String),
      addLocalesLoop canon ls ltpc locs = .ok (ltpc', locs') →
      ∀ x, x ∈ locs' ↔ x ∈ locs ∨ ∃ raw ∈ ls, canon raw = some x := by
  intro ls
  induction ls with
  | nil =>
    intro ltpc locs ltpc' locs' hok x
    simp only [addLocalesLoop, Except.ok.injEq] at hok
    obtain ⟨-, h2⟩ := Prod.mk.injEq .. ▸ hok
    subst h2
    simp
  | cons u rest ih =>
    intro ltpc locs ltpc' locs' hok x
    simp only [addLocalesLoop] at hok
    cases hu : canon u with
    | none => rw [hu] at hok; cases hok
    | some t =>
      rw [hu] at hok
      rw [ih _ _ _ _ hok x, setAdd_mem]
      constructor
      · rintro ((hx | hx) | ⟨raw, hraw, hcr⟩)
        · exact Or.inl hx
        · exact Or.inr ⟨u, List.mem_cons_self u rest, hx ▸ hu⟩
        · exact Or.inr ⟨raw, List.mem_cons_of_mem u hraw, hcr⟩
      · rintro (hx | ⟨raw, hraw, hcr⟩)
        · exact Or.inl (Or.inl hx)
        · rcases List.mem_cons.mp hraw with h | h
          · subst h
            rw [hu] at hcr
            exact Or.inl (Or.inr (Option.some_inj.mp hcr).symm)
          · exact Or.inr ⟨raw, h, hcr⟩

theorem construct_locales (canon : String → Option String)
    (options : FluentBoxOptions) (h : HandleState) (s : SharedState)
    (hc : construct canon options = .ok (h, s)) :
    ∀ x, s._locales.contains x = true ↔
      ∃ raw ∈ options.locales, canon raw = some x := by
  intro x
  unfold construct at hc
  cases hloc : addLocalesLoop canon options.locales [] [] with
  | error e => rw [hloc] at hc; cases hc
  | ok pr =>
    rw [hloc] at hc
    cases hfb : addFallbacksLoop canon options.fallbacks [] with
    | error e => rw [hfb] at hc; cases hc
    | ok fbMap =>
      rw [hfb] at hc
      cases hdl : canon options.defaultLocale with
      | none => rw [hdl] at hc; cases hc
      | some dl =>
        rw [hdl] at hc
        simp only [Except.ok.injEq, Prod.mk.injEq] at hc
        obtain ⟨-, hs⟩ := hc
        subst hs
        rw [List.elem_iff]
        simpa using addLocalesLoop_mem canon options.locales [] [] pr.1 pr.2
          (by rw [hloc]) x

theorem firstHas_eq_map (f : String → Option (Option String × List String))
    (g : String → Option Bool)
    (hp : ∀ l, g l = (f l).map (fun r => r.1.isSome)) :
    ∀ ls, firstHas g ls = (firstMsg f ls).map (fun r => r.1.isSome) := by
  intro ls
  induction ls with
  | nil => rfl
  | cons fl rest ih =>
    simp only [firstHas, firstMsg, hp fl]
    cases hf : f fl with
    | none => rfl
    | some r =>
      rcases r with ⟨res, errs⟩
      cases res with
      | some v => rfl
      | none =>
        simp only [Option.map, Option.isSome]
        rw [ih]
        cases firstMsg f rest with
        | none => rfl
        | some r2 => rcases r2 with ⟨res2, errs2⟩; cases res2 <;> rfl

theorem hasMessageByLocale_eq_map (s : SharedState) (dl : Option IntlLocale)
    (fmt : Fmt) (id : String) (args : Option FluentArgs) :
    ∀ (fuel : Nat) (locale : String),
      hasMessageByLocale s dl id fuel locale =
        (getMessageByLocale s dl fmt id args fuel locale).map
          (fun r => r.1.isSome) := by
  intro fuel
  induction fuel with
  | zero => intro locale; rfl
  | succ fuel ih =>
    intro locale
    have hfirst := firstHas_eq_map (getMessageByLocale s dl fmt id args fuel)
      (hasMessageByLocale s dl id fuel) (fun l => ih l)
    simp only [hasMessageByLocale, getMessageByLocale]
    cases hA : mapGet s._assets locale with
    | some assets =>
      dsimp only []
      cases hm : assets.getMessage id with
      | some msg =>
        dsimp only []
        cases hv : msg.value <;> rfl
      | none =>
        dsimp only [Option.isSome]
        rw [hfirst]
        cases hfm : firstMsg (getMessageByLocale s dl fmt id args fuel)
            ((mapGet s._fallbacks locale).getD []) with
        | none => rfl
        | some r =>
          rcases r with ⟨res, errs⟩
          cases res with
          | some v => rfl
          | none =>
            dsimp only [Option.map, Option.isSome]
            cases dl with
            | none => rfl
            | some d =>
              by_cases hl : (strToLower locale == strToLower d.tag) = true
              · simp [hl]
              · simp only [hl, Bool.false_eq_true, if_false, ih d.tag]
                cases getMessageByLocale s (some d) fmt id args fuel d.tag with
                | none => rfl
                | some r2 => rcases r2 with ⟨res2, errs2⟩; rfl
    | none =>
      dsimp only [Option.isSome]
      rw [hfirst]
      cases hfm : firstMsg (getMessageByLocale s dl fmt id args fuel)
          ((mapGet s._fallbacks locale).getD []) with
      | none => rfl
      | some r =>
        rcases r with ⟨res, errs⟩
        cases res with
        | some v => rfl
        | none =>
          dsimp only [Option.map, Option.isSome]
          cases dl with
          | none => rfl
          | some d =>
            by_cases hl : (strToLower locale == strToLower d.tag) = true
            · simp [hl]
            · simp only [hl, Bool.false_eq_true, if_false, ih d.tag]
              cases getMessageByLocale s (some d) fmt id args fuel d.tag with
              | none => rfl
              | some r2 => rcases r2 with ⟨res2, errs2⟩; rfl

/-! ### Claim theorems -/

/-- C1: if the batch of a `load` call contains a locale whose fetch or
build fails, the call resolves to `false` (it neither rejects nor throws
asynchronously) and leaves the handle state (current-locale pointer) and
the shared collections (Asset Table) exactly as they were. -/
theorem load_failure_is_atomic_and_resolves_false
    (h : HandleState) (s : SharedState)
    (fetcher : String → Option FluentBundle) (fuel : Nat)
    (arg : Option IntlLocale) (nl : IntlLocale) (l : String)
    (hres : arg.orElse (fun _ => h._defaultLocale) = some nl)
    (hsup : supportsLocale s (.inl nl) = true)
    (hmem : l ∈ toLoadList s._fallbacks fuel nl.tag)
    (hfail : fetcher l = none) :
    load h s fetcher fuel arg = (h, s, .resolved false) := by
  have hall := promiseAll_fail fetcher (toLoadList s._fallbacks fuel nl.tag)
    ⟨l, hmem, hfail⟩
  simp only [load, hres, hsup, if_true, hall]

/-- Witness for C1: loading `en` (whose fallback `pt` fails to fetch) over
the concrete configuration resolves to `false` and changes nothing. -/
theorem load_failure_is_atomic_and_resolves_false_witness :
    load handleW sharedW fetchFailPT 5 (some ⟨"en"⟩) =
      (handleW, sharedW, .resolved false) :=
  load_failure_is_atomic_and_resolves_false handleW sharedW fetchFailPT 5
    (some ⟨"en"⟩) ⟨"en"⟩ "pt" rfl (by decide) (by decide) (by decide)

/-- C2 counterexample: the claim "after the original handle successfully
loads locale l, currentLocale on the clone returns l" is false.  Over the
concrete configuration, the original handle `handleW` (current locale `de`)
is cloned, then successfully loads `en`; the original's pointer becomes
`en`, but `currentLocale` of the clone still returns `de`, because
`clone()` copies the `_currentLocale` field by value and
`self._currentLocale = newLocale` writes only the original's field. -/
theorem clone_currentLocale_stale_after_load :
    (load handleW sharedW fetchW 5 (some ⟨"en"⟩)).2.2 = .resolved true ∧
    (load handleW sharedW fetchW 5 (some ⟨"en"⟩)).1._currentLocale =
      some ⟨"en"⟩ ∧
    currentLocale (cloneHandle handleW) = some ⟨"de"⟩ ∧
    (⟨"de"⟩ : IntlLocale) ≠ ⟨"en"⟩ := by
  decide

/-- C2 amended: `clone` copies every per-handle field, so the clone is
indistinguishable as a reader and a `load` through either handle performs
the identical transformation of the shared collections (Asset Table, locale
set, fallback map) — loads are visible through both handles; but the
current-locale pointer is a per-handle field frozen at clone time, not
updated by the other handle's load. -/
theorem clone_shares_collections_not_currentLocale
    (h : HandleState) (s : SharedState)
    (fetcher : String → Option FluentBundle) (fuel : Nat)
    (arg : Option IntlLocale) :
    cloneHandle h = h ∧
    load (cloneHandle h) s fetcher fuel arg = load h s fetcher fuel arg ∧
    currentLocale (cloneHandle h) = currentLocale h :=
  ⟨rfl, rfl, rfl⟩

/-- C3: the claim that the batch of a `load` call is deduplicated is false
on the code.  `toLoad` is a `Set<Intl.Locale>` of freshly allocated locale
objects, which a JS `Set` compares by identity, so nothing is ever
deduplicated: with the diamond fallback graph `en → [pt, fr]`, `pt → [de]`,
`fr → [de]`, the batch for `load(en)` contains `de` twice, and the fetch
and bundle build for `de` are issued twice in that call. -/
theorem load_batch_fetches_duplicate_locale :
    toLoadList [("en", ["pt", "fr"]), ("pt", ["de"]), ("fr", ["de"])] 10 "en"
      = ["en", "pt", "de", "fr", "de"] ∧
    List.count "de"
      (toLoadList [("en", ["pt", "fr"]), ("pt", ["de"]), ("fr", ["de"])] 10
        "en") = 2 := by
  decide

/-- C6: `load` of a locale outside the declared set throws synchronously
("Unsupported locale") with the handle and the shared collections
unchanged; the result does not depend on the fetch oracle at all (the
equation holds for every `fetcher`), i.e. no fetch is initiated. -/
theorem load_unsupported_locale_throws_sync
    (h : HandleState) (s : SharedState)
    (fetcher : String → Option FluentBundle) (fuel : Nat) (nl : IntlLocale)
    (hsup : supportsLocale s (.inl nl) = false) :
    load h s fetcher fuel (some nl) = (h, s, .threw "Unsupported locale") := by
  simp only [load, Option.orElse, hsup, Bool.false_eq_true, if_false]

/-- Witness for C6: loading the undeclared locale `xx` over the concrete
configuration throws synchronously and changes nothing. -/
theorem load_unsupported_locale_throws_sync_witness :
    load handleW sharedW fetchW 5 (some ⟨"xx"⟩) =
      (handleW, sharedW, .threw "Unsupported locale") :=
  load_unsupported_locale_throws_sync handleW sharedW fetchW 5 ⟨"xx"⟩
    (by decide)

/-- C10: frame property of `load` — whatever the outcome (synchronous
throw, failed batch, committed batch), every field other than the Asset
Table (`_assets`) and the current-locale pointer (`_currentLocale`) is
unchanged: the locale set, the path-component map, the fallback graph, the
default locale, the source, the file list, the clean flag, the backend
selection and the initializer list. -/
theorem load_mutates_only_assets_and_currentLocale
    (h : HandleState) (s : SharedState)
    (fetcher : String → Option FluentBundle) (fuel : Nat)
    (arg : Option IntlLocale) :
    ((load h s fetcher fuel arg).1._defaultLocale = h._defaultLocale ∧
     (load h s fetcher fuel arg).1._source = h._source ∧
     (load h s fetcher fuel arg).1._clean = h._clean ∧
     (load h s fetcher fuel arg).1._method = h._method) ∧
    ((load h s fetcher fuel arg).2.1._localeToPathComponents =
       s._localeToPathComponents ∧
     (load h s fetcher fuel arg).2.1._locales = s._locales ∧
     (load h s fetcher fuel arg).2.1._fallbacks = s._fallbacks ∧
     (load h s fetcher fuel arg).2.1._files = s._files ∧
     (load h s fetcher fuel arg).2.1._bundleInitializers =
       s._bundleInitializers) := by
  unfold load
  cases harg : arg.orElse (fun _ => h._defaultLocale) with
  | none => simp
  | some nl =>
    by_cases hsup : supportsLocale s (.inl nl) = true
    · simp only [hsup, if_true]
      cases promiseAll ((toLoadList s._fallbacks fuel nl.tag).map
          (fun a => (fetcher a).map (fun b => (a, b)))) <;> simp
    · simp only [if_neg hsup]
      simp

/-- C7: `hasMessage` and `getMessage` agree — whenever the cascade
terminates, `hasMessage` is `true` exactly when `getMessage` is non-null;
a message that is defined but carries no renderable value makes
`hasMessage` report `true` while `getMessage` returns the empty string;
and with no current locale set both report not-found. -/
theorem hasMessage_agrees_with_getMessage
    (h : HandleState) (s : SharedState) (fmt : Fmt) (id : String)
    (args : Option FluentArgs) (fuel : Nat) :
    hasMessage h s id fuel =
      (getMessage h s fmt id args fuel).map (fun r => r.1.isSome) ∧
    (h._currentLocale = none →
      hasMessage h s id fuel = some false ∧
      getMessage h s fmt id args fuel = some (none, [])) ∧
    (∀ locale b, mapGet s._assets locale = some b →
      b.getMessage id = some ⟨none⟩ →
      hasMessageByLocale s h._defaultLocale id (fuel + 1) locale =
        some true ∧
      getMessageByLocale s h._defaultLocale fmt id args (fuel + 1) locale =
        some (some "", [])) := by
  refine ⟨?_, ?_, ?_⟩
  · unfold hasMessage getMessage
    cases h._currentLocale with
    | none => rfl
    | some cl =>
      exact hasMessageByLocale_eq_map s h._defaultLocale fmt id args fuel
        cl.tag
  · intro hnone
    constructor <;> simp [hasMessage, getMessage, hnone]
  · intro locale b hb hm
    constructor
    · simp only [hasMessageByLocale, hb]
      rw [hm]
      rfl
    · simp only [getMessageByLocale, hb]
      rw [hm]

/-- Witness for C7: in the concrete configuration, the valueless message
`noval` of the `de` bundle makes `hasMessage` true and `getMessage` return
the empty string. -/
theorem hasMessage_agrees_with_getMessage_witness :
    hasMessageByLocale sharedW handleW._defaultLocale "noval" (4 + 1) "de" =
      some true ∧
    getMessageByLocale sharedW handleW._defaultLocale fmtId "noval" none
      (4 + 1) "de" = some (some "", []) :=
  (hasMessage_agrees_with_getMessage handleW sharedW fmtId "noval" none
    4).2.2 "de" bundleDE (by decide) (by decide)

/-- C9: Asset Table lifecycle on a successful `load`: under the clean
policy the table afterwards contains exactly the new batch's entries (any
key outside the batch, e.g. a previously loaded locale, is absent); under
the accumulate policy the batch entries are merged in, overwriting entries
for batch locales and leaving every other key's previous entry intact. -/
theorem load_commit_asset_table_policy
    (h : HandleState) (s : SharedState)
    (fetcher : String → Option FluentBundle) (fuel : Nat)
    (arg : Option IntlLocale) (nl : IntlLocale)
    (h' : HandleState) (s' : SharedState)
    (hres : arg.orElse (fun _ => h._defaultLocale) = some nl)
    (hload : load h s fetcher fuel arg = (h', s', .resolved true))
    (k : String) :
    mapGet s'._assets k =
      if k ∈ toLoadList s._fallbacks fuel nl.tag then fetcher k
      else if h._clean then none else mapGet s._assets k := by
  simp only [load, hres] at hload
  by_cases hsup : supportsLocale s (.inl nl) = true
  · simp only [hsup, if_true] at hload
    cases hall : promiseAll ((toLoadList s._fallbacks fuel nl.tag).map
        (fun a => (fetcher a).map (fun b => (a, b)))) with
    | none => rw [hall] at hload; simp at hload
    | some res =>
      rw [hall] at hload
      simp only [Prod.mk.injEq] at hload
      obtain ⟨-, hs, -⟩ := hload
      obtain ⟨hkeys, hvals⟩ := promiseAll_ok fetcher _ res hall
      rw [← hs]
      show mapGet (res.foldl (fun m p => mapSet m p.1 p.2)
        (if h._clean then [] else s._assets)) k = _
      rw [mapGet_foldl_mapSet fetcher res _ k hvals, hkeys]
      by_cases hmem : k ∈ toLoadList s._fallbacks fuel nl.tag
      · simp [hmem]
      · by_cases hclean : h._clean <;> simp [hmem, hclean, mapGet]
  · simp only [if_neg hsup] at hload
    simp at hload

/-- Witness for C9: over the concrete configuration, loading `en`
(fallback `pt`) with the clean policy removes the previously loaded `de`
bundle and installs the batch; with the accumulate policy the `de` bundle
survives. -/
theorem load_commit_asset_table_policy_witness :
    mapGet (load handleW sharedW fetchW 5 (some ⟨"en"⟩)).2.1._assets "de" =
      none ∧
    mapGet (load handleW sharedW fetchW 5 (some ⟨"en"⟩)).2.1._assets "pt" =
      some bundlePT ∧
    mapGet (load handleWacc sharedW fetchW 5 (some ⟨"en"⟩)).2.1._assets
      "de" = some bundleDE := by
  refine ⟨?_, ?_, ?_⟩
  · rw [load_commit_asset_table_policy handleW sharedW fetchW 5
      (some ⟨"en"⟩) ⟨"en"⟩ (load handleW sharedW fetchW 5
        (some ⟨"en"⟩)).1 (load handleW sharedW fetchW 5 (some ⟨"en"⟩)).2.1
      rfl (by decide) "de"]
    decide
  · rw [load_commit_asset_table_policy handleW sharedW fetchW 5
      (some ⟨"en"⟩) ⟨"en"⟩ (load handleW sharedW fetchW 5
        (some ⟨"en"⟩)).1 (load handleW sharedW fetchW 5 (some ⟨"en"⟩)).2.1
      rfl (by decide) "pt"]
    decide
  · rw [load_commit_asset_table_policy handleWacc sharedW fetchW 5
      (some ⟨"en"⟩) ⟨"en"⟩ (load handleWacc sharedW fetchW 5
        (some ⟨"en"⟩)).1 (load handleWacc sharedW fetchW 5 (some ⟨"en"⟩)).2.1
      rfl (by decide) "de"]
    decide

/-- C8: default-locale termination — when the cascade's locale equals the
default locale under case-insensitive comparison, it does not recurse into
the default again: with the current locale equal to the default (any
casing), no fallbacks for it and the message absent from its bundle, the
cascade terminates (already with fuel 1, i.e. without any recursion) and
returns not-found. -/
theorem default_locale_cascade_terminates
    (h : HandleState) (s : SharedState) (fmt : Fmt) (id : String)
    (args : Option FluentArgs) (L D : String)
    (hcur : h._currentLocale = some ⟨L⟩)
    (hdl : h._defaultLocale = some ⟨D⟩)
    (hcase : (strToLower L == strToLower D) = true)
    (hfb : (mapGet s._fallbacks L).getD [] = [])
    (habs : ∀ b, mapGet s._assets L = some b → b.getMessage id = none)
    (fuel : Nat) :
    getMessage h s fmt id args (fuel + 1) = some (none, []) ∧
    hasMessage h s id (fuel + 1) = some false := by
  constructor
  · simp only [getMessage, hcur, hdl, getMessageByLocale]
    cases hA : mapGet s._assets L with
    | none =>
      rw [hfb]
      simp [firstMsg, hcase]
    | some b =>
      dsimp only []
      rw [habs b hA, hfb]
      simp [firstMsg, hcase]
  · simp only [hasMessage, hcur, hdl, hasMessageByLocale]
    cases hA : mapGet s._assets L with
    | none =>
      rw [hfb]
      simp [firstHas, hcase]
    | some b =>
      dsimp only []
      rw [habs b hA, hfb]
      simp [firstHas, hcase]

/-- Witness for C8: current locale `en-US`, default locale `en-us`
(differing only in casing), no fallbacks, message absent: the cascade
terminates with fuel 1 and reports not-found. -/
theorem default_locale_cascade_terminates_witness :
    getMessage handleC8 sharedC8 fmtId "missing" none (0 + 1) =
      some (none, []) ∧
    hasMessage handleC8 sharedC8 "missing" (0 + 1) = some false :=
  default_locale_cascade_terminates handleC8 sharedC8 fmtId "missing" none
    "en-US" "en-us" rfl rfl (by decide) (by decide)
    (fun b hb => by
      have hb2 : some bundleC8 = some b := hb
      injection hb2 with hb3
      rw [← hb3]
      decide) 0

/-- C4: the cascading lookup order.  For a configuration whose current
locale `A` falls back to `B`, `B` falls back to `C`, with default locale
`D` (no fallbacks of its own, all pairwise distinct as required for that
shape): a message defined only in `C`'s bundle resolves to `C`'s formatted
value; a message absent from `A`, `B`, `C` but defined in `D`'s bundle
resolves to `D`'s value; a message absent everywhere returns not-found. -/
theorem getMessage_fallback_cascade
    (s : SharedState) (h : HandleState) (fmt : Fmt) (id : String)
    (args : Option FluentArgs) (A B C D : String)
    (bA bB bC bD : FluentBundle) (n : Nat)
    (hfb : s._fallbacks = [(A, [B]), (B, [C])])
    (hAB : A ≠ B) (hCA : A ≠ C) (hCB : B ≠ C) (hDA : A ≠ D) (hDB : B ≠ D)
    (hlA : strToLower A ≠ strToLower D) (hlB : strToLower B ≠ strToLower D)
    (hlC : strToLower C ≠ strToLower D)
    (hA : mapGet s._assets A = some bA) (hB : mapGet s._assets B = some bB)
    (hC : mapGet s._assets C = some bC) (hD : mapGet s._assets D = some bD)
    (hcur : h._currentLocale = some ⟨A⟩)
    (hdl : h._defaultLocale = some ⟨D⟩)
    (hmA : bA.getMessage id = none) (hmB : bB.getMessage id = none) :
    (∀ pat, bC.getMessage id = some ⟨some pat⟩ →
      getMessage h s fmt id args (n + 1 + 1 + 1 + 1) =
        some (some (fmt pat args).1, (fmt pat args).2)) ∧
    (bC.getMessage id = none → ∀ pat, bD.getMessage id = some ⟨some pat⟩ →
      getMessage h s fmt id args (n + 1 + 1 + 1 + 1) =
        some (some (fmt pat args).1, (fmt pat args).2)) ∧
    (bC.getMessage id = none → bD.getMessage id = none →
      getMessage h s fmt id args (n + 1 + 1 + 1 + 1) = some (none, [])) := by
  refine ⟨?_, ?_, ?_⟩
  · intro pat hpat
    simp [getMessage, hcur, hdl, getMessageByLocale, firstMsg, mapGet, hfb,
      hA, hB, hC, hmA, hmB, hpat, hAB, hCA, hCB, hDA, hDB, hlA, hlB, hlC]
  · intro hmC pat hpat
    simp [getMessage, hcur, hdl, getMessageByLocale, firstMsg, mapGet, hfb,
      hA, hB, hC, hD, hmA, hmB, hmC, hpat, hAB, hCA, hCB, hDA, hDB, hlA,
      hlB, hlC]
  · intro hmC hmD
    simp [getMessage, hcur, hdl, getMessageByLocale, firstMsg, mapGet, hfb,
      hA, hB, hC, hD, hmA, hmB, hmC, hmD, hAB, hCA, hCB, hDA, hDB, hlA,
      hlB, hlC]

/-- Witness for C4: the concrete cascade `en → fr → de`, default `pt`:
`inC` (defined only in `de`'s bundle) resolves to `C-val`; `inD` (defined
only in `pt`'s bundle) resolves to `D-val`; `nope` (absent everywhere)
resolves to not-found. -/
theorem getMessage_fallback_cascade_witness :
    getMessage handleC4 sharedC4 fmtId "inC" none (0 + 1 + 1 + 1 + 1) =
      some (some "C-val", []) ∧
    getMessage handleC4 sharedC4 fmtId "inD" none (0 + 1 + 1 + 1 + 1) =
      some (some "D-val", []) ∧
    getMessage handleC4 sharedC4 fmtId "nope" none (0 + 1 + 1 + 1 + 1) =
      some (none, []) := by
  have h1 := getMessage_fallback_cascade sharedC4 handleC4 fmtId "inC" none
    "en" "fr" "de" "pt" bundleC4en bundleC4fr bundleC4de bundleC4pt 0 rfl
    (by decide) (by decide) (by decide) (by decide) (by decide) (by decide)
    (by decide) (by decide) (by decide) (by decide) (by decide) (by decide)
    rfl rfl (by decide) (by decide)
  have h2 := getMessage_fallback_cascade sharedC4 handleC4 fmtId "inD" none
    "en" "fr" "de" "pt" bundleC4en bundleC4fr bundleC4de bundleC4pt 0 rfl
    (by decide) (by decide) (by decide) (by decide) (by decide) (by decide)
    (by decide) (by decide) (by decide) (by decide) (by decide) (by decide)
    rfl rfl (by decide) (by decide)
  have h3 := getMessage_fallback_cascade sharedC4 handleC4 fmtId "nope" none
    "en" "fr" "de" "pt" bundleC4en bundleC4fr bundleC4de bundleC4pt 0 rfl
    (by decide) (by decide) (by decide) (by decide) (by decide) (by decide)
    (by decide) (by decide) (by decide) (by decide) (by decide) (by decide)
    rfl rfl (by decide) (by decide)
  exact ⟨h1.1 "C-val" (by decide), h2.2.1 (by decide) "D-val" (by decide),
    h3.2.2 (by decide) (by decide)⟩

/-- C5 counterexample: the claim "supportsLocale(l) is true iff the
canonical form of l is among the canonical forms of the declared locales,
whether l is a string or a parsed locale object" fails for string
arguments.  Constructing with declared spelling `en-us` (canonical form
`en-US`), the string argument `"en-us"` canonicalizes to the declared
`en-US`, yet `supportsLocale` returns `false`, because a string argument's
`.toString()` is the raw string and is compared verbatim against the
canonical set; the parsed-locale argument for the same locale returns
`true`. -/
theorem supportsLocale_string_argument_not_canonicalized :
    construct canonEx optsC5 = .ok (handleC5, sharedC5) ∧
    canonEx "en-us" = some "en-US" ∧
    sharedC5._locales = ["en-US"] ∧
    supportsLocale sharedC5 (.inr "en-us") = false ∧
    supportsLocale sharedC5 (.inl ⟨"en-US"⟩) = true :=
  ⟨rfl, rfl, rfl, rfl, rfl⟩

/-- C5 amended: for every configuration accepted by the constructor and
every argument, `supportsLocale` returns true iff the argument's
`.toString()` — the canonical tag for a parsed locale object, but the raw
spelling for a string — is among the canonical forms of the locales
declared at construction.  (String arguments are compared verbatim, not
canonicalized.) -/
theorem supportsLocale_iff_declared_canonical_spelling
    (canon : String → Option String) (options : FluentBoxOptions)
    (h : HandleState) (s : SharedState)
    (hc : construct canon options = .ok (h, s))
    (arg : IntlLocale ⊕ String) :
    supportsLocale s arg = true ↔
      ∃ raw ∈ options.locales, canon raw = some (argToString arg) :=
  construct_locales canon options h s hc (argToString arg)

/-- Witness for C5 (amended): over the concrete configuration, the parsed
locale object for `en-US` is supported because the declared spelling
`en-us` canonicalizes to it. -/
theorem supportsLocale_iff_declared_canonical_spelling_witness :
    supportsLocale sharedC5 (.inl ⟨"en-US"⟩) = true :=
  (supportsLocale_iff_declared_canonical_spelling canonEx optsC5 handleC5
    sharedC5 rfl (.inl ⟨"en-US"⟩)).mpr ⟨"en-us", by decide, by decide⟩

end FluentBox
